import Mathlib

/-!
Shallow embedding of the todo repository (`service/todo/repository.go`) of
nathansiegfrid/todolist-go, together with the pieces of `service/error.go`
it relies on.  SQL statements are given their evaluated semantics over a
database modelled as a list of rows; `uuid.New()` and `time.Now()` become
explicit parameters; the caller identity carried in `context.Context`
becomes an explicit `caller` argument.
-/

namespace Todolist

/-- Postgres `timestamp` value, split into the calendar date (`day`) and the
time-of-day remainder (`tod`), so that the `::date` cast used by the
due-date predicate in `GetAll` is expressible as projecting `day`. -/
structure DateTime where
  day : Int
  tod : Nat
  deriving DecidableEq, Repr

/-- The `Todo` entity scanned from the nine columns
`id, user_id, subject, description, priority, due_date, completed,
created_at, updated_at`.  IDs are opaque; UUIDs are modelled as `Nat`.
The struct itself lives in the repository's model file (not under the
sources given); its fields are exactly the columns read and written by
`repository.go`. -/
structure Todo where
  id : Nat
  user_id : Nat
  subject : String
  description : String
  priority : Int
  due_date : Option DateTime
  completed : Bool
  created_at : Nat
  updated_at : Nat
  deriving DecidableEq, Repr

/-- The Go `Optional`-style wrapper used by filters and patches: a `Defined`
flag plus a payload `Value`, mirroring the `v.Defined` / `v.Value` accesses
in `repository.go` (the spec's tri-state FieldFilter primitive). -/
structure Optional (α : Type) where
  Defined : Bool
  Value : α
  deriving DecidableEq, Repr

/-- `TodoFilter` as consumed by `Repository.GetAll`: sparse predicates over
ID, user, priority, due date (whose value may itself be null) and
completed, plus limit/offset pagination. -/
structure TodoFilter where
  ID : Optional Nat
  UserID : Optional Nat
  Priority : Optional Int
  DueDate : Optional (Option DateTime)
  Completed : Optional Bool
  Limit : Int
  Offset : Int
  deriving DecidableEq, Repr

/-- `TodoUpdate` as consumed by `updateTodo`: sparse assignments for the
five mutable fields; the due-date assignment may be null. -/
structure TodoUpdate where
  Subject : Optional String
  Description : Optional String
  Priority : Optional Int
  DueDate : Optional (Option DateTime)
  Completed : Optional Bool
  deriving DecidableEq, Repr

/-- The error kinds produced by the repository (`service/error.go`):
`ErrNotFound(id)`, `ErrPermission()`, and pass-through storage errors. -/
inductive Err where
  | notFound (id : Nat)
  | permissionDenied
  | storage (msg : String)
  deriving DecidableEq, Repr

/-- A positional SQL parameter appended to `args` by the filter builder in
`GetAll`; the constructor records which Go value was bound. -/
inductive SqlArg where
  | uuid (v : Nat)
  | int (v : Int)
  | time (v : DateTime)
  | bool (v : Bool)
  deriving DecidableEq, Repr

/-- The WHERE-building prelude of `Repository.GetAll`
(`repository.go:25-54`): starts from `["TRUE"]`, appends one clause per
`Defined` filter field in declaration order, threading the positional
parameter index; a null due-date appends `due_date IS NULL` and binds
nothing. -/
def buildWhere (filter : TodoFilter) : List String × List SqlArg × Nat :=
  let acc := (["TRUE"], ([] : List SqlArg), 1)
  let acc := if (filter.ID).Defined then
      (acc.1 ++ ["id = $" ++ toString acc.2.2],
       acc.2.1 ++ [SqlArg.uuid (filter.ID).Value], acc.2.2 + 1)
    else acc
  let acc := if (filter.UserID).Defined then
      (acc.1 ++ ["user_id = $" ++ toString acc.2.2],
       acc.2.1 ++ [SqlArg.uuid (filter.UserID).Value], acc.2.2 + 1)
    else acc
  let acc := if (filter.Priority).Defined then
      (acc.1 ++ ["priority = $" ++ toString acc.2.2],
       acc.2.1 ++ [SqlArg.int (filter.Priority).Value], acc.2.2 + 1)
    else acc
  let acc := if (filter.DueDate).Defined then
      match (filter.DueDate).Value with
      | none => (acc.1 ++ ["due_date IS NULL"], acc.2.1, acc.2.2)
      | some v =>
        (acc.1 ++ ["due_date::date = $" ++ toString acc.2.2 ++ "::date"],
         acc.2.1 ++ [SqlArg.time v], acc.2.2 + 1)
    else acc
  let acc := if (filter.Completed).Defined then
      (acc.1 ++ ["completed = $" ++ toString acc.2.2],
       acc.2.1 ++ [SqlArg.bool (filter.Completed).Value], acc.2.2 + 1)
    else acc
  acc

/-- The LIMIT clause of `GetAll` (`repository.go:56-59`): emitted only for a
positive limit. -/
def buildLimit (filter : TodoFilter) : String :=
  if filter.Limit > 0 then " LIMIT " ++ toString filter.Limit ++ " " else ""

/-- The OFFSET clause of `GetAll` (`repository.go:60-62`): emitted only for
a positive offset. -/
def buildOffset (filter : TodoFilter) : String :=
  if filter.Offset > 0 then " OFFSET " ++ toString filter.Offset ++ " " else ""

/-- Row-level semantics of the conjunction of WHERE clauses emitted by
`GetAll`: `TRUE` AND one predicate per defined field.  The due-date
predicate is `due_date::date = $n::date` — equality of calendar dates,
which is NULL (hence does not match) when the stored due date is NULL —
or `due_date IS NULL` when the filter value is null. -/
def matchesFilter (filter : TodoFilter) (t : Todo) : Bool :=
  (if (filter.ID).Defined then t.id == (filter.ID).Value else true) &&
  (if (filter.UserID).Defined then t.user_id == (filter.UserID).Value else true) &&
  (if (filter.Priority).Defined then t.priority == (filter.Priority).Value else true) &&
  (if (filter.DueDate).Defined then
      match (filter.DueDate).Value with
      | none => t.due_date == none
      | some v =>
        match t.due_date with
        | none => false
        | some d => d.day == v.day
    else true) &&
  (if (filter.Completed).Defined then t.completed == (filter.Completed).Value else true)

/-- Comparison used by the query's `ORDER BY description ASC`: lexicographic
order on the description text (stated on the character list, which is the
same order as `String.le` by `String.le_iff_toList_le`). -/
def descLe (a b : Todo) : Prop := a.description.toList ≤ b.description.toList

/-- Ordering on the subject text, analogous to `descLe`; used to examine the
claimed subject-ordering of `GetAll` results. -/
def subjLe (a b : Todo) : Prop := a.subject.toList ≤ b.subject.toList

instance : DecidableRel descLe := fun a b =>
  inferInstanceAs (Decidable (a.description.toList ≤ b.description.toList))

instance : DecidableRel subjLe := fun a b =>
  inferInstanceAs (Decidable (a.subject.toList ≤ b.subject.toList))

instance : IsTotal Todo descLe :=
  ⟨fun a b => le_total a.description.toList b.description.toList⟩

instance : IsTrans Todo descLe := ⟨fun _ _ _ h h' => le_trans h h'⟩

/-- Semantics of the OFFSET clause built by `buildOffset`: skip that many
ordered rows when the clause is emitted (offset > 0). -/
def offsetRows (filter : TodoFilter) (rows : List Todo) : List Todo :=
  if filter.Offset > 0 then rows.drop filter.Offset.toNat else rows

/-- Semantics of the LIMIT clause built by `buildLimit`: keep that many
rows when the clause is emitted (limit > 0). -/
def limitRows (filter : TodoFilter) (rows : List Todo) : List Todo :=
  if filter.Limit > 0 then rows.take filter.Limit.toNat else rows

/-- `Repository.GetAll` (`repository.go:23-97`): rows satisfying the built
WHERE conjunction, ordered by `description ASC`, with OFFSET applied before
LIMIT and each only when positive. -/
def GetAll (db : List Todo) (filter : TodoFilter) : List Todo :=
  limitRows filter
    (offsetRows filter (List.insertionSort descLe (db.filter (matchesFilter filter))))

/-- `Repository.Get` (`repository.go:99-126`): single-row read by ID.  The
storage layer either fails (`Except.error`) — surfaced unchanged as a
storage error — or yields the table; zero matching rows becomes
`ErrNotFound(id)` via the `sql.ErrNoRows` branch. -/
def Get (db : Except String (List Todo)) (id : Nat) : Except Err Todo :=
  match db with
  | Except.error e => Except.error (Err.storage e)
  | Except.ok rows =>
    match rows.find? (fun t => t.id == id) with
    | some t => Except.ok t
    | none => Except.error (Err.notFound id)

/-- `getTodoForUpdate` (`repository.go:178-208`): `SELECT ... WHERE id = $1
FOR UPDATE` inside the transaction; zero rows becomes `ErrNotFound(id)`.
The row lock itself is a concurrency primitive with no effect on the
single-transaction semantics modelled here. -/
def getTodoForUpdate (db : List Todo) (id : Nat) : Except Err Todo :=
  match db.find? (fun t => t.id == id) with
  | some t => Except.ok t
  | none => Except.error (Err.notFound id)

/-- The field-merging block of `updateTodo` (`repository.go:221-241`): each
`Defined` patch field overwrites the in-memory record and sets the
`updated` flag. -/
def mergePatch (todo : Todo) (update : TodoUpdate) : Todo × Bool :=
  let (todo, updated) :=
    if (update.Subject).Defined then
      ({ todo with subject := (update.Subject).Value }, true)
    else (todo, false)
  let (todo, updated) :=
    if (update.Description).Defined then
      ({ todo with description := (update.Description).Value }, true)
    else (todo, updated)
  let (todo, updated) :=
    if (update.Priority).Defined then
      ({ todo with priority := (update.Priority).Value }, true)
    else (todo, updated)
  let (todo, updated) :=
    if (update.DueDate).Defined then
      ({ todo with due_date := (update.DueDate).Value }, true)
    else (todo, updated)
  let (todo, updated) :=
    if (update.Completed).Defined then
      ({ todo with completed := (update.Completed).Value }, true)
    else (todo, updated)
  (todo, updated)

/-- The `UPDATE todo SET subject, description, priority, due_date,
completed, updated_at WHERE id = $7` statement (`repository.go:247-258`):
every row with the given ID receives the six SET columns (ID, owner and
created-at are not in the SET list); returns the affected-row count with
the new table. -/
def execUpdateRow (db : List Todo) (id : Nat) (t : Todo) : Nat × List Todo :=
  ((db.filter (fun r => r.id == id)).length,
   db.map (fun r =>
     if r.id == id then
       { r with subject := t.subject, description := t.description,
                priority := t.priority, due_date := t.due_date,
                completed := t.completed, updated_at := t.updated_at }
     else r))

/-- The `DELETE FROM todo WHERE id = $1` statement (`repository.go:284`):
removes every row with the given ID, returning the affected-row count. -/
def execDeleteRow (db : List Todo) (id : Nat) : Nat × List Todo :=
  ((db.filter (fun r => r.id == id)).length,
   db.filter (fun r => !(r.id == id)))

/-- `updateTodo` (`repository.go:210-271`) run inside a transaction: lock
and load the row, check ownership against the caller identity from
context, merge the patch; if no field was defined return with no write,
else stamp `updated_at := now` (`time.Now()`) and issue the UPDATE,
reporting `ErrNotFound(id)` on zero affected rows. -/
def updateTodo (db : List Todo) (caller : Nat) (now : Nat) (id : Nat)
    (update : TodoUpdate) : Except Err (List Todo) :=
  match getTodoForUpdate db id with
  | Except.error e => Except.error e
  | Except.ok todo =>
    if todo.user_id != caller then
      Except.error Err.permissionDenied
    else
      let m := mergePatch todo update
      if !m.2 then
        Except.ok db
      else
        let r := execUpdateRow db id { m.1 with updated_at := now }
        if r.1 == 0 then
          Except.error (Err.notFound id)
        else
          Except.ok r.2

/-- `deleteTodo` (`repository.go:273-297`): lock and load, check ownership,
then DELETE by ID, reporting `ErrNotFound(id)` on zero affected rows. -/
def deleteTodo (db : List Todo) (caller : Nat) (id : Nat) :
    Except Err (List Todo) :=
  match getTodoForUpdate db id with
  | Except.error e => Except.error e
  | Except.ok todo =>
    if todo.user_id != caller then
      Except.error Err.permissionDenied
    else
      let r := execDeleteRow db id
      if r.1 == 0 then
        Except.error (Err.notFound id)
      else
        Except.ok r.2

/-- `Repository.Update` (`repository.go:150-162`): transaction wrapper —
on any error from `updateTodo` the deferred rollback discards the
transaction's writes and the table is unchanged; otherwise the commit
installs the new table. -/
def Update (db : List Todo) (caller : Nat) (now : Nat) (id : Nat)
    (update : TodoUpdate) : Option Err × List Todo :=
  match updateTodo db caller now id update with
  | Except.error e => (some e, db)
  | Except.ok db' => (none, db')

/-- `Repository.Delete` (`repository.go:164-176`): transaction wrapper with
rollback-on-error, like `Update`. -/
def Delete (db : List Todo) (caller : Nat) (id : Nat) :
    Option Err × List Todo :=
  match deleteTodo db caller id with
  | Except.error e => (some e, db)
  | Except.ok db' => (none, db')

/-- `Repository.Create` (`repository.go:128-148`): overwrites the input's
ID with `uuid.New()` (modelled by the `newID` parameter), the owner with
the caller identity from context, and both timestamps with `time.Now()`,
then inserts the single resulting row.  Returns the stamped record and the
new table. -/
def Create (db : List Todo) (caller : Nat) (now : Nat) (newID : Nat)
    (todo : Todo) : Todo × List Todo :=
  let todo := { todo with id := newID, user_id := caller,
                          created_at := now, updated_at := now }
  (todo, db ++ [todo])

/-! ### Helper lemmas -/

lemma find?_id_mem {db : List Todo} {id : Nat} {t : Todo}
    (h : db.find? (fun r => r.id == id) = some t) : t ∈ db ∧ t.id = id :=
  ⟨List.mem_of_find?_eq_some h, by simpa using List.find?_some h⟩

lemma find?_id_none {db : List Todo} {id : Nat} (h : ∀ t ∈ db, t.id ≠ id) :
    db.find? (fun r => r.id == id) = none :=
  List.find?_eq_none.mpr (fun t htm => by simpa using h t htm)

lemma mergePatch_eq (t : Todo) (u : TodoUpdate) :
    mergePatch t u =
      ({ t with
          subject := if (u.Subject).Defined then (u.Subject).Value else t.subject,
          description := if (u.Description).Defined then (u.Description).Value
            else t.description,
          priority := if (u.Priority).Defined then (u.Priority).Value else t.priority,
          due_date := if (u.DueDate).Defined then (u.DueDate).Value else t.due_date,
          completed := if (u.Completed).Defined then (u.Completed).Value
            else t.completed },
       ((u.Subject).Defined || (u.Description).Defined || (u.Priority).Defined
         || (u.DueDate).Defined || (u.Completed).Defined)) := by
  rcases u with ⟨⟨d1, v1⟩, ⟨d2, v2⟩, ⟨d3, v3⟩, ⟨d4, v4⟩, ⟨d5, v5⟩⟩
  cases d1 <;> cases d2 <;> cases d3 <;> cases d4 <;> cases d5 <;> rfl

lemma updateTodo_permission {db : List Todo} {caller now id : Nat} {u : TodoUpdate}
    {t : Todo} (ht : db.find? (fun r => r.id == id) = some t)
    (hne : t.user_id ≠ caller) :
    updateTodo db caller now id u = Except.error Err.permissionDenied := by
  simp [updateTodo, getTodoForUpdate, ht, hne]

lemma deleteTodo_permission {db : List Todo} {caller id : Nat}
    {t : Todo} (ht : db.find? (fun r => r.id == id) = some t)
    (hne : t.user_id ≠ caller) :
    deleteTodo db caller id = Except.error Err.permissionDenied := by
  simp [deleteTodo, getTodoForUpdate, ht, hne]

lemma updateTodo_missing {db : List Todo} {caller now id : Nat} {u : TodoUpdate}
    (h : db.find? (fun r => r.id == id) = none) :
    updateTodo db caller now id u = Except.error (Err.notFound id) := by
  simp [updateTodo, getTodoForUpdate, h]

lemma deleteTodo_missing {db : List Todo} {caller id : Nat}
    (h : db.find? (fun r => r.id == id) = none) :
    deleteTodo db caller id = Except.error (Err.notFound id) := by
  simp [deleteTodo, getTodoForUpdate, h]

lemma updateTodo_ok_owner {db db' : List Todo} {caller now id : Nat} {u : TodoUpdate}
    (h : updateTodo db caller now id u = Except.ok db') :
    ∃ t, db.find? (fun r => r.id == id) = some t ∧ t.user_id = caller := by
  unfold updateTodo getTodoForUpdate at h
  cases hf : db.find? (fun r => r.id == id) with
  | none => rw [hf] at h; simp at h
  | some t =>
    rw [hf] at h
    refine ⟨t, rfl, ?_⟩
    by_contra hne
    have hb : (t.user_id != caller) = true := by simpa using hne
    simp [hb] at h

lemma deleteTodo_ok_owner {db db' : List Todo} {caller id : Nat}
    (h : deleteTodo db caller id = Except.ok db') :
    ∃ t, db.find? (fun r => r.id == id) = some t ∧ t.user_id = caller := by
  unfold deleteTodo getTodoForUpdate at h
  cases hf : db.find? (fun r => r.id == id) with
  | none => rw [hf] at h; simp at h
  | some t =>
    rw [hf] at h
    refine ⟨t, rfl, ?_⟩
    by_contra hne
    have hb : (t.user_id != caller) = true := by simpa using hne
    simp [hb] at h

/-! ### Claim theorems -/

/-- C1, counterexample: the list operation does NOT order results by the
subject text.  With two records whose subject order is the reverse of
their description order, `GetAll` under the unconstrained filter returns
them in description order, which is not ascending in subject. -/
theorem getAll_subject_order_counterexample :
    ¬ List.Sorted subjLe
      (GetAll
        [⟨1, 1, "b", "a", 0, none, false, 0, 0⟩,
         ⟨2, 1, "a", "b", 0, none, false, 0, 0⟩]
        ⟨⟨false, 0⟩, ⟨false, 0⟩, ⟨false, 0⟩, ⟨false, none⟩, ⟨false, false⟩, 0, 0⟩) := by
  decide

/-- C1, amended: for every database and every filter, `GetAll` returns the
matching records ordered by the DESCRIPTION text field ascending (the
query's fixed `ORDER BY description ASC`), regardless of the filter
contents. -/
theorem getAll_sorted_by_description (db : List Todo) (f : TodoFilter) :
    List.Sorted descLe (GetAll db f) := by
  have h := List.sorted_insertionSort descLe (db.filter (matchesFilter f))
  have hoff : List.Sorted descLe
      (offsetRows f (List.insertionSort descLe (db.filter (matchesFilter f)))) := by
    unfold offsetRows
    split
    · exact List.Pairwise.sublist (List.drop_sublist _ _) h
    · exact h
  unfold GetAll limitRows
  split
  · exact List.Pairwise.sublist (List.take_sublist _ _) hoff
  · exact hoff

/-- C2, counterexample: a record is NOT only visible by its owner — `Get`
performs no ownership check.  The single stored record is owned by user 1,
yet `Get` returns it unconditionally; a caller whose identity is 2 (≠ 1)
receives the full record. -/
theorem get_visibility_counterexample :
    Get (Except.ok [⟨5, 1, "s", "d", 0, none, false, 0, 0⟩]) 5
        = Except.ok ⟨5, 1, "s", "d", 0, none, false, 0, 0⟩
      ∧ (⟨5, 1, "s", "d", 0, none, false, 0, 0⟩ : Todo).user_id ≠ 2 :=
  ⟨rfl, by decide⟩

/-- C2, amended: a record is only MUTABLE by its owner.  Whenever `Update`
or `Delete` changes the stored state at all, the row with the targeted ID
exists and is owned by the caller (read operations `Get`/`GetAll` do not
consult the caller's identity at this layer). -/
theorem mutation_only_by_owner (db : List Todo) (caller now id : Nat)
    (u : TodoUpdate) :
    ((Update db caller now id u).2 ≠ db →
      ∃ t, t ∈ db ∧ t.id = id ∧ t.user_id = caller)
    ∧ ((Delete db caller id).2 ≠ db →
      ∃ t, t ∈ db ∧ t.id = id ∧ t.user_id = caller) := by
  constructor
  · intro hch
    unfold Update at hch
    cases h : updateTodo db caller now id u with
    | error e => rw [h] at hch; exact absurd rfl hch
    | ok db' =>
      obtain ⟨t, ht, hown⟩ := updateTodo_ok_owner h
      obtain ⟨hmem, hid⟩ := find?_id_mem ht
      exact ⟨t, hmem, hid, hown⟩
  · intro hch
    unfold Delete at hch
    cases h : deleteTodo db caller id with
    | error e => rw [h] at hch; exact absurd rfl hch
    | ok db' =>
      obtain ⟨t, ht, hown⟩ := deleteTodo_ok_owner h
      obtain ⟨hmem, hid⟩ := find?_id_mem ht
      exact ⟨t, hmem, hid, hown⟩

/-- C2, witness for the amended theorem: an update by the owner of record 1
does change the state, and the theorem then exhibits the owned row. -/
theorem mutation_only_by_owner_witness :
    ∃ t, t ∈ [(⟨1, 1, "s", "d", 0, none, false, 0, 0⟩ : Todo)] ∧ t.id = 1
      ∧ t.user_id = 1 :=
  (mutation_only_by_owner [⟨1, 1, "s", "d", 0, none, false, 0, 0⟩] 1 7 1
    ⟨⟨true, "x"⟩, ⟨false, ""⟩, ⟨false, 0⟩, ⟨false, none⟩, ⟨false, false⟩⟩).1
    (by decide)

/-- C3: for an existing record owned by A, a caller B ≠ A gets
`PermissionDenied` from both `Update` and `Delete`, and the rollback leaves
the stored table exactly as it was. -/
theorem crossuser_update_delete_denied (db : List Todo) (A B now id : Nat)
    (u : TodoUpdate) (t : Todo)
    (ht : db.find? (fun r => r.id == id) = some t)
    (hA : t.user_id = A) (hB : B ≠ A) :
    Update db B now id u = (some Err.permissionDenied, db)
    ∧ Delete db B id = (some Err.permissionDenied, db) := by
  have hne : t.user_id ≠ B := by rw [hA]; exact fun h => hB h.symm
  constructor
  · unfold Update; rw [updateTodo_permission ht hne]
  · unfold Delete; rw [deleteTodo_permission ht hne]

/-- C3, witness: caller 2 on the record of owner 1. -/
theorem crossuser_update_delete_denied_witness :
    Update [(⟨1, 1, "s", "d", 0, none, false, 0, 0⟩ : Todo)] 2 7 1
        ⟨⟨true, "x"⟩, ⟨false, ""⟩, ⟨false, 0⟩, ⟨false, none⟩, ⟨false, false⟩⟩
      = (some Err.permissionDenied, [⟨1, 1, "s", "d", 0, none, false, 0, 0⟩])
    ∧ Delete [(⟨1, 1, "s", "d", 0, none, false, 0, 0⟩ : Todo)] 2 1
      = (some Err.permissionDenied, [⟨1, 1, "s", "d", 0, none, false, 0, 0⟩]) :=
  crossuser_update_delete_denied [⟨1, 1, "s", "d", 0, none, false, 0, 0⟩]
    1 2 7 1 ⟨⟨true, "x"⟩, ⟨false, ""⟩, ⟨false, 0⟩, ⟨false, none⟩, ⟨false, false⟩⟩
    ⟨1, 1, "s", "d", 0, none, false, 0, 0⟩ rfl rfl (by decide)

/-- C4: an `Update` by the owner with a patch whose every field is unset
commits successfully (`none` error) and returns the table unchanged: no
write is issued and no field — `updated_at` included — changes. -/
theorem update_all_unset_noop (db : List Todo) (caller now id : Nat)
    (u : TodoUpdate) (t : Todo)
    (ht : db.find? (fun r => r.id == id) = some t)
    (hown : t.user_id = caller)
    (h1 : (u.Subject).Defined = false) (h2 : (u.Description).Defined = false)
    (h3 : (u.Priority).Defined = false) (h4 : (u.DueDate).Defined = false)
    (h5 : (u.Completed).Defined = false) :
    Update db caller now id u = (none, db) := by
  have hm := mergePatch_eq t u
  unfold Update updateTodo getTodoForUpdate
  rw [ht]
  simp [hown, hm, h1, h2, h3, h4, h5]

/-- C4, witness: all-unset patch on an owned record. -/
theorem update_all_unset_noop_witness :
    Update [(⟨1, 1, "s", "d", 0, none, false, 0, 0⟩ : Todo)] 1 7 1
        ⟨⟨false, ""⟩, ⟨false, ""⟩, ⟨false, 0⟩, ⟨false, none⟩, ⟨false, false⟩⟩
      = (none, [⟨1, 1, "s", "d", 0, none, false, 0, 0⟩]) :=
  update_all_unset_noop [⟨1, 1, "s", "d", 0, none, false, 0, 0⟩] 1 7 1
    ⟨⟨false, ""⟩, ⟨false, ""⟩, ⟨false, 0⟩, ⟨false, none⟩, ⟨false, false⟩⟩
    ⟨1, 1, "s", "d", 0, none, false, 0, 0⟩ rfl rfl rfl rfl rfl rfl rfl

/-- C6: `Update` and `Delete` on an ID for which no record exists fail with
`NotFound(id)` and leave the table unchanged, for EVERY caller identity:
the ownership check runs only after the locked row is loaded, so a missing
row yields `NotFound` regardless of who calls and `PermissionDenied` can
never precede it. -/
theorem update_delete_missing_not_found (db : List Todo) (caller now id : Nat)
    (u : TodoUpdate) (habs : ∀ t ∈ db, t.id ≠ id) :
    Update db caller now id u = (some (Err.notFound id), db)
    ∧ Delete db caller id = (some (Err.notFound id), db) := by
  have hf := find?_id_none habs
  constructor
  · unfold Update; rw [updateTodo_missing hf]
  · unfold Delete; rw [deleteTodo_missing hf]

/-- C6, witness: a non-empty table with no row of ID 9. -/
theorem update_delete_missing_not_found_witness :
    Update [(⟨1, 1, "s", "d", 0, none, false, 0, 0⟩ : Todo)] 2 7 9
        ⟨⟨true, "x"⟩, ⟨false, ""⟩, ⟨false, 0⟩, ⟨false, none⟩, ⟨false, false⟩⟩
      = (some (Err.notFound 9), [⟨1, 1, "s", "d", 0, none, false, 0, 0⟩])
    ∧ Delete [(⟨1, 1, "s", "d", 0, none, false, 0, 0⟩ : Todo)] 2 9
      = (some (Err.notFound 9), [⟨1, 1, "s", "d", 0, none, false, 0, 0⟩]) :=
  update_delete_missing_not_found [⟨1, 1, "s", "d", 0, none, false, 0, 0⟩] 2 7 9
    ⟨⟨true, "x"⟩, ⟨false, ""⟩, ⟨false, 0⟩, ⟨false, none⟩, ⟨false, false⟩⟩
    (by decide)

/-- C5: a successful `Update` by the owner with at least one set field
rewrites the targeted record so that exactly the set fields take their
patch values, `updated_at` is bumped to the transaction's current time,
every other field keeps its prior value, and in particular ID, owner and
`created_at` are never modified; every other row is untouched.
(`hkey` states that the looked-up row is the only one with the target ID —
`id` is the table's primary key.) -/
theorem update_partial_patch (db : List Todo) (caller now id : Nat)
    (u : TodoUpdate) (t : Todo)
    (ht : db.find? (fun r => r.id == id) = some t)
    (hown : t.user_id = caller)
    (hkey : ∀ r ∈ db, r.id = id → r = t)
    (hsome : ((u.Subject).Defined || (u.Description).Defined
      || (u.Priority).Defined || (u.DueDate).Defined
      || (u.Completed).Defined) = true) :
    ∃ t', Update db caller now id u
        = (none, db.map fun r => if r.id == id then t' else r)
      ∧ t'.id = t.id ∧ t'.user_id = t.user_id ∧ t'.created_at = t.created_at
      ∧ t'.updated_at = now
      ∧ t'.subject
          = (if (u.Subject).Defined then (u.Subject).Value else t.subject)
      ∧ t'.description
          = (if (u.Description).Defined then (u.Description).Value else t.description)
      ∧ t'.priority
          = (if (u.Priority).Defined then (u.Priority).Value else t.priority)
      ∧ t'.due_date
          = (if (u.DueDate).Defined then (u.DueDate).Value else t.due_date)
      ∧ t'.completed
          = (if (u.Completed).Defined then (u.Completed).Value else t.completed) := by
  obtain ⟨hmem, hid⟩ := find?_id_mem ht
  have hm := mergePatch_eq t u
  refine ⟨{ (mergePatch t u).1 with updated_at := now }, ?_,
    by simp [hm], by simp [hm], by simp [hm], by simp [hm], by simp [hm],
    by simp [hm], by simp [hm], by simp [hm], by simp [hm]⟩
  have hb : (t.user_id != caller) = false := by simp [hown]
  have htf : t ∈ db.filter (fun r => r.id == id) :=
    List.mem_filter.mpr ⟨hmem, by simp [hid]⟩
  have hlen : ((db.filter (fun r => r.id == id)).length == 0) = false := by
    simp only [beq_eq_false_iff_ne, ← Nat.pos_iff_ne_zero]
    exact List.length_pos.mpr (List.ne_nil_of_mem htf)
  unfold Update updateTodo getTodoForUpdate
  rw [ht]
  simp only [hb, Bool.false_eq_true, if_false, hm, hsome, Bool.not_true,
    execUpdateRow, hlen]
  refine congrArg (Prod.mk none) (List.map_congr_left ?_)
  intro r hr
  by_cases hcase : (r.id == id) = true
  · rw [if_pos hcase, if_pos hcase, hkey r hr (by simpa using hcase)]
  · rw [if_neg hcase, if_neg hcase]

/-- C5, witness: owner 1 patches only `completed` on an owned record. -/
theorem update_partial_patch_witness :
    ∃ t', Update [(⟨1, 1, "s", "d", 0, none, false, 3, 3⟩ : Todo)] 1 7 1
        ⟨⟨false, ""⟩, ⟨false, ""⟩, ⟨false, 0⟩, ⟨false, none⟩, ⟨true, true⟩⟩
        = (none, [(⟨1, 1, "s", "d", 0, none, false, 3, 3⟩ : Todo)].map
            fun r => if r.id == 1 then t' else r)
      ∧ t'.id = 1 ∧ t'.user_id = 1 ∧ t'.created_at = 3 ∧ t'.updated_at = 7
      ∧ t'.subject = "s" ∧ t'.description = "d" ∧ t'.priority = 0
      ∧ t'.due_date = none ∧ t'.completed = true := by
  have h := update_partial_patch [(⟨1, 1, "s", "d", 0, none, false, 3, 3⟩ : Todo)]
    1 7 1 ⟨⟨false, ""⟩, ⟨false, ""⟩, ⟨false, 0⟩, ⟨false, none⟩, ⟨true, true⟩⟩
    ⟨1, 1, "s", "d", 0, none, false, 3, 3⟩ rfl rfl (by decide) rfl
  simpa using h

/-- C7: the query builder emits exactly one predicate per set filter field
and none per unset field, in declaration order ID, owner, priority,
due-date, completed; a null due-date emits `due_date IS NULL` binding no
parameter, every other set field binds one positional parameter numbered
consecutively from `$1` in that same order; the final parameter index is
one past the bound count; and the LIMIT/OFFSET clauses are emitted exactly
when their value is positive. -/
theorem getAll_builder_shape (f : TodoFilter) :
    buildWhere f =
      ("TRUE" ::
        ((if (f.ID).Defined then ["id = $1"] else []) ++
         (if (f.UserID).Defined then
            ["user_id = $" ++ toString (1 + (if (f.ID).Defined then 1 else 0))]
          else []) ++
         (if (f.Priority).Defined then
            ["priority = $" ++ toString (1 + (if (f.ID).Defined then 1 else 0)
              + (if (f.UserID).Defined then 1 else 0))]
          else []) ++
         (if (f.DueDate).Defined then
            (match (f.DueDate).Value with
             | none => ["due_date IS NULL"]
             | some _ =>
               ["due_date::date = $"
                 ++ toString (1 + (if (f.ID).Defined then 1 else 0)
                   + (if (f.UserID).Defined then 1 else 0)
                   + (if (f.Priority).Defined then 1 else 0)) ++ "::date"])
          else []) ++
         (if (f.Completed).Defined then
            ["completed = $" ++ toString (1 + (if (f.ID).Defined then 1 else 0)
              + (if (f.UserID).Defined then 1 else 0)
              + (if (f.Priority).Defined then 1 else 0)
              + (if (f.DueDate).Defined && ((f.DueDate).Value).isSome then 1 else 0))]
          else [])),
       (if (f.ID).Defined then [SqlArg.uuid (f.ID).Value] else []) ++
       (if (f.UserID).Defined then [SqlArg.uuid (f.UserID).Value] else []) ++
       (if (f.Priority).Defined then [SqlArg.int (f.Priority).Value] else []) ++
       (if (f.DueDate).Defined then
          (match (f.DueDate).Value with
           | none => []
           | some v => [SqlArg.time v])
        else []) ++
       (if (f.Completed).Defined then [SqlArg.bool (f.Completed).Value] else []),
       1 + (if (f.ID).Defined then 1 else 0) + (if (f.UserID).Defined then 1 else 0)
         + (if (f.Priority).Defined then 1 else 0)
         + (if (f.DueDate).Defined && ((f.DueDate).Value).isSome then 1 else 0)
         + (if (f.Completed).Defined then 1 else 0))
    ∧ buildLimit f = (if f.Limit > 0 then " LIMIT " ++ toString f.Limit ++ " " else "")
    ∧ buildOffset f
        = (if f.Offset > 0 then " OFFSET " ++ toString f.Offset ++ " " else "") := by
  refine ⟨?_, rfl, rfl⟩
  rcases f with ⟨⟨d1, v1⟩, ⟨d2, v2⟩, ⟨d3, v3⟩, ⟨d4, v4⟩, ⟨d5, v5⟩, lim, off⟩
  cases d1 <;> cases d2 <;> cases d3 <;> cases d4 <;> cases v4 <;> cases d5 <;> rfl

/-- C8: `Get` fails with `NotFound(id)` exactly when no stored record has
the requested ID; when the row is found it is returned with all nine
columns as scanned; and a storage-layer failure is surfaced as a storage
error, never as `NotFound`. -/
theorem get_by_id_spec (rows : List Todo) (id : Nat) :
    (Get (Except.ok rows) id = Except.error (Err.notFound id)
      ↔ ∀ t ∈ rows, t.id ≠ id)
    ∧ (∀ t, rows.find? (fun r => r.id == id) = some t
      → Get (Except.ok rows) id = Except.ok t)
    ∧ (∀ e, Get (Except.error e) id = Except.error (Err.storage e)) := by
  refine ⟨⟨?_, ?_⟩, ?_, fun e => rfl⟩
  · intro h t htm hid
    simp only [Get] at h
    cases hf : rows.find? (fun r => r.id == id) with
    | some t' => rw [hf] at h; simp at h
    | none =>
      have hn := List.find?_eq_none.mp hf t htm
      simp [hid] at hn
  · intro h
    simp only [Get]
    rw [find?_id_none h]
  · intro t ht
    simp only [Get]
    rw [ht]

/-- C8, witness: a one-row table queried for an absent ID. -/
theorem get_by_id_spec_witness :
    Get (Except.ok [(⟨1, 1, "s", "d", 0, none, false, 0, 0⟩ : Todo)]) 9
      = Except.error (Err.notFound 9) :=
  (get_by_id_spec [⟨1, 1, "s", "d", 0, none, false, 0, 0⟩] 9).1.mpr (by decide)

/-- C9: `Create` overwrites the input record's ID with the freshly
generated one, its owner with the caller identity from context, and both
timestamps with the current time (`created_at = updated_at = now`),
keeping the caller-supplied payload fields, and inserts exactly that one
row at the end of the table.  It holds for every caller — `Create`
performs no ownership check and cannot fail with a permission error. -/
theorem create_stamps_and_inserts (db : List Todo) (caller now newID : Nat)
    (todo : Todo) :
    (Create db caller now newID todo).2
        = db ++ [(Create db caller now newID todo).1]
    ∧ (Create db caller now newID todo).1
        = { todo with id := newID, user_id := caller,
                      created_at := now, updated_at := now } :=
  ⟨rfl, rfl⟩

/-- C10: when the filter's due-date is set to a non-null value, `GetAll`
matching compares calendar dates only (`due_date::date = $n::date`): a
record with a non-null due date matches exactly when its due date falls on
the same calendar day as the filter value, independently of the
time-of-day component of either — conjoined with the remaining filter
predicates, which are those of the same filter with due-date unset. -/
theorem duedate_filter_calendar_day (f : TodoFilter) (v d : DateTime) (t : Todo)
    (hf : f.DueDate = ⟨true, some v⟩) (ht : t.due_date = some d) :
    matchesFilter f t
      = ((d.day == v.day)
        && matchesFilter { f with DueDate := ⟨false, none⟩ } t) := by
  simp only [matchesFilter, hf, ht]
  cases d.day == v.day <;>
    simp [Bool.and_comm, Bool.and_left_comm, Bool.and_assoc]

/-- C10, witness: filter due-date and stored due-date share day 10 with
different times of day; the record matches. -/
theorem duedate_filter_calendar_day_witness :
    matchesFilter
        ⟨⟨false, 0⟩, ⟨false, 0⟩, ⟨false, 0⟩, ⟨true, some ⟨10, 5⟩⟩,
          ⟨false, false⟩, 0, 0⟩
        (⟨1, 1, "s", "d", 0, some ⟨10, 22⟩, false, 0, 0⟩ : Todo)
      = (((⟨10, 22⟩ : DateTime).day == (⟨10, 5⟩ : DateTime).day)
        && matchesFilter
          { (⟨⟨false, 0⟩, ⟨false, 0⟩, ⟨false, 0⟩, ⟨true, some ⟨10, 5⟩⟩,
              ⟨false, false⟩, 0, 0⟩ : TodoFilter) with DueDate := ⟨false, none⟩ }
          (⟨1, 1, "s", "d", 0, some ⟨10, 22⟩, false, 0, 0⟩ : Todo)) :=
  duedate_filter_calendar_day _ ⟨10, 5⟩ ⟨10, 22⟩ _ rfl rfl

end Todolist
